import Mathlib

/-!
Verification of the Kalman filter / RTS smoother core of the
quasi-Newton particle Metropolis-Hastings example code
(src/state/kalman.py, class kalmanMethods), against its
natural-language specification.

The embedding models the floating-point arithmetic of the source over ℝ
(exact real semantics, with Lean's convention x / 0 = 0 and 0 ^ (-n) = 0
standing in for IEEE inf/NaN propagation).  Arrays allocated with
np.zeros are modelled as total functions ℕ → ℝ that return 0 at every
index the source never assigns; the attribute sets stored by kf and rts
are packaged as structures of lists whose lengths mirror the numpy
allocation sizes.  A Python run that raises an uncaught exception is
modelled as Option.none.
-/

noncomputable section

namespace Kalman

/-- The external model object (`sys`) as consumed by kf/rts: parameter
vector, observation sequence y, input sequence u, length T, size of the
inference parameter subset, and the external log-prior derivative
dprior1. -/
structure Sys where
  par : ℕ → ℝ
  y : ℕ → ℝ
  u : ℕ → ℝ
  T : ℕ
  nParInference : ℕ
  dprior1 : ℕ → ℝ

/-- Source kalman.py line 47: `self.xo = 0.0` (initial state). -/
def xo : ℝ := 0

/-- Source kalman.py line 48: `self.Po = 1e-5` (initial covariance). -/
def Po : ℝ := 1e-5

/-- Source kalman.py line 65: `self.C = 1.0` (observation matrix). -/
def C : ℝ := 1

/-- Source kalman.py line 63: `self.m = sys.par[0]`. -/
def m (sys : Sys) : ℝ := sys.par 0

/-- Source kalman.py line 64: `self.A = sys.par[1]`. -/
def A (sys : Sys) : ℝ := sys.par 1

/-- Source kalman.py line 66: `self.Q = sys.par[2]**2`. -/
def Q (sys : Sys) : ℝ := sys.par 2 ^ 2

/-- Source kalman.py line 67: `self.q = sys.par[2]`. -/
def q (sys : Sys) : ℝ := sys.par 2

/-- Source kalman.py line 68: `self.R = sys.par[3]**2`. -/
def R (sys : Sys) : ℝ := sys.par 3 ^ 2

/-- Source kalman.py line 69: `self.r = sys.par[3]`. -/
def r (sys : Sys) : ℝ := sys.par 3

/-- Source kalman.py line 82 as a function of the current predicted variance p:
`S[tt] = self.C * Pp[tt] * self.C + self.R`. -/
def Sof (sys : Sys) (p : ℝ) : ℝ := C * p * C + R sys

/-- Source kalman.py line 83 as a function of the current predicted variance p:
`K[tt] = Pp[tt] * self.C / S[tt]`. -/
def Kof (sys : Sys) (p : ℝ) : ℝ := p * C / Sof sys p

/-- Source kalman.py line 91 as a function of the current predicted variance p:
`Pf[tt] = Pp[tt] - K[tt] * S[tt] * K[tt]`. -/
def Pfof (sys : Sys) (p : ℝ) : ℝ := p - Kof sys p * Sof sys p * Kof sys p

/-- Predicted variance sequence: kalman.py line 72 `Pp[0] = self.Po` and
line 92 `Pp[tt+1] = self.A * Pf[tt] * self.A + self.Q`. -/
def Pp (sys : Sys) : ℕ → ℝ
  | 0 => Po
  | t + 1 => A sys * Pfof sys (Pp sys t) * A sys + Q sys

/-- Innovation variance `S[tt]` (kalman.py line 82). -/
def S (sys : Sys) (t : ℕ) : ℝ := Sof sys (Pp sys t)

/-- Kalman gain `K[tt]` (kalman.py line 83). -/
def K (sys : Sys) (t : ℕ) : ℝ := Kof sys (Pp sys t)

/-- Filtered variance `Pf[tt]` (kalman.py line 91). -/
def Pf (sys : Sys) (t : ℕ) : ℝ := Pfof sys (Pp sys t)

/-- Predicted state sequence: kalman.py line 73 `xhatp[0] = self.xo` and
line 88 `xhatp[tt+1] = self.A * xhatf[tt] + self.m * (1.0 - self.A) +
sys.u[tt]`, with `xhatf[tt]` of line 87 inlined. -/
def xhatp (sys : Sys) : ℕ → ℝ
  | 0 => xo
  | t + 1 =>
      A sys * (xhatp sys t + K sys t * (sys.y t - C * xhatp sys t)) +
        m sys * (1 - A sys) + sys.u t

/-- Predicted observation `yhatp[tt] = self.C * xhatp[tt]`
(kalman.py line 86). -/
def yhatp (sys : Sys) (t : ℕ) : ℝ := C * xhatp sys t

/-- Filtered state `xhatf[tt] = xhatp[tt] + K[tt] * (sys.y[tt] -
yhatp[tt])` (kalman.py line 87). -/
def xhatf (sys : Sys) (t : ℕ) : ℝ :=
  xhatp sys t + K sys t * (sys.y t - yhatp sys t)

/-- Per-time log-likelihood `ll[tt]` (kalman.py line 95). -/
def ll (sys : Sys) (t : ℕ) : ℝ :=
  -0.5 * Real.log (2 * Real.pi * S sys t) -
    0.5 * (sys.y t - yhatp sys t) * (sys.y t - yhatp sys t) / S sys t

/-- The attribute set stored by kf (kalman.py lines 101-107): the scalar
log-likelihood, the per-time log-likelihood array, and the filtering
arrays.  The local arrays S and yhatp are not stored. -/
structure FilterResult where
  ll : ℝ
  llt : List ℝ
  xhatf : List ℝ
  xhatp : List ℝ
  K : List ℝ
  Pp : List ℝ
  Pf : List ℝ

/-- The Kalman filter kf (kalman.py lines 40-107).  List lengths mirror
the numpy allocations of lines 54-61 (`xhatp`, `Pp` of size T+1, the
rest of size T); the scalar ll is `np.sum(ll)` of line 101. -/
def kf (sys : Sys) : FilterResult :=
  { ll := ((List.range sys.T).map (ll sys)).sum
    llt := (List.range sys.T).map (ll sys)
    xhatf := (List.range sys.T).map (xhatf sys)
    xhatp := (List.range (sys.T + 1)).map (xhatp sys)
    K := (List.range sys.T).map (K sys)
    Pp := (List.range (sys.T + 1)).map (Pp sys)
    Pf := (List.range sys.T).map (Pf sys) }

/-- The local array `S` of kf (allocated line 54 with T entries, filled
for tt = 0..T-1, discarded at the end of kf). -/
def Slist (sys : Sys) : List ℝ := (List.range sys.T).map (S sys)

/-- The local array `yhatp` of kf (allocated line 58 with T entries,
filled for tt = 0..T-1, discarded at the end of kf). -/
def yhatplist (sys : Sys) : List ℝ := (List.range sys.T).map (yhatp sys)

/-- The smoother gain array `J` (kalman.py lines 124 and 138).  The
backward loop `for tt in range((sys.T-2),0,-1)` assigns
`J[tt] = self.Pf[tt] * self.A / self.Pp[tt+1]` exactly for indices
1 ≤ tt ≤ T-2; every other entry keeps the np.zeros value 0. -/
def J (sys : Sys) (t : ℕ) : ℝ :=
  if 1 ≤ t ∧ t ≤ sys.T - 2 then Pf sys t * A sys / Pp sys (t + 1) else 0

/-- Backward smoothed-state recursion of kalman.py line 139, indexed by
fuel: `xhatsAux sys k` is the value the loop stores in `xhats[T-1-k]`.
Base k = 0 is the boundary `xhats[T-1] = xhatf[T-1]` of line 131. -/
def xhatsAux (sys : Sys) : ℕ → ℝ
  | 0 => xhatf sys (sys.T - 1)
  | k + 1 =>
      xhatf sys (sys.T - 2 - k) +
        J sys (sys.T - 2 - k) * (xhatsAux sys k - xhatp sys (sys.T - 1 - k))

/-- The smoothed-state array `xhats` (kalman.py lines 126, 131, 139):
assigned at indices 1..T-1 by the boundary condition and the backward
loop; index 0 keeps the np.zeros value 0. -/
def xhats (sys : Sys) (t : ℕ) : ℝ :=
  if 1 ≤ t ∧ t ≤ sys.T - 1 then xhatsAux sys (sys.T - 1 - t) else 0

/-- Backward smoothed-variance recursion of kalman.py line 140, indexed
by fuel: `PsAux sys k` is the value the loop stores in `Ps[T-1-k]`.
Base k = 0 is the boundary `Ps[T-1] = Pf[T-1]` of line 130. -/
def PsAux (sys : Sys) : ℕ → ℝ
  | 0 => Pf sys (sys.T - 1)
  | k + 1 =>
      Pf sys (sys.T - 2 - k) +
        J sys (sys.T - 2 - k) * (PsAux sys k - Pp sys (sys.T - 1 - k)) *
          J sys (sys.T - 2 - k)

/-- The smoothed-variance array `Ps` (kalman.py lines 127, 130, 140):
assigned at indices 1..T-1; index 0 keeps the np.zeros value 0. -/
def Ps (sys : Sys) (t : ℕ) : ℝ :=
  if 1 ≤ t ∧ t ≤ sys.T - 1 then PsAux sys (sys.T - 1 - t) else 0

/-- Lag-one covariance recursion of kalman.py line 148, indexed by fuel:
`MAux sys k` is the value stored in `M[T-1-k]`.  Base k = 0 is
`M[T-1] = (1 - K[T-1]) * A * Pf[T-1]` of line 146.  The step at index
tt = T-2-k reads `J[tt-1]`, the stored array entry. -/
def MAux (sys : Sys) : ℕ → ℝ
  | 0 => (1 - K sys (sys.T - 1)) * A sys * Pf sys (sys.T - 1)
  | k + 1 =>
      Pf sys (sys.T - 2 - k) * J sys (sys.T - 2 - k - 1) +
        J sys (sys.T - 2 - k - 1) *
            (MAux sys k - A sys * Pf sys (sys.T - 2 - k)) *
          J sys (sys.T - 2 - k - 1)

/-- The lag-one covariance array `M` (kalman.py lines 125, 146, 148):
assigned at indices 1..T-1; index 0 keeps the np.zeros value 0. -/
def M (sys : Sys) (t : ℕ) : ℝ :=
  if 1 ≤ t ∧ t ≤ sys.T - 1 then MAux sys (sys.T - 1 - t) else 0

/-- Sufficient statistic `kappa = xhats[tt] * sys.y[tt]`
(kalman.py line 157). -/
def kappa (sys : Sys) (t : ℕ) : ℝ := xhats sys t * sys.y t

/-- Sufficient statistic `eta = xhats[tt] * xhats[tt] + Ps[tt]`
(kalman.py line 158). -/
def eta (sys : Sys) (t : ℕ) : ℝ := xhats sys t * xhats sys t + Ps sys t

/-- Sufficient statistic `eta1 = xhats[tt-1] * xhats[tt-1] + Ps[tt-1]`
(kalman.py line 159). -/
def eta1 (sys : Sys) (t : ℕ) : ℝ :=
  xhats sys (t - 1) * xhats sys (t - 1) + Ps sys (t - 1)

/-- Sufficient statistic `psi = xhats[tt-1] * xhats[tt] + M[tt]`
(kalman.py line 160). -/
def psi (sys : Sys) (t : ℕ) : ℝ := xhats sys (t - 1) * xhats sys t + M sys t

/-- Prediction residual `px = xhats[tt] - self.m - self.A *
(xhats[tt-1] - self.m) + sys.u[tt]` (kalman.py line 162). -/
def px (sys : Sys) (t : ℕ) : ℝ :=
  xhats sys t - m sys - A sys * (xhats sys (t - 1) - m sys) + sys.u t

/-- Reciprocal `Q1 = self.q**(-1)` (kalman.py line 163). -/
def Q1 (sys : Sys) : ℝ := q sys ^ (-1 : ℤ)

/-- Reciprocal `Q2 = self.q**(-2)` (kalman.py line 164). -/
def Q2 (sys : Sys) : ℝ := q sys ^ (-2 : ℤ)

/-- Reciprocal `Q3 = self.q**(-3)` (kalman.py line 165). -/
def Q3 (sys : Sys) : ℝ := q sys ^ (-3 : ℤ)

/-- Entry (i, tt) of the per-time gradient matrix
`gradient = np.zeros((4, sys.T))` (kalman.py lines 154, 167-170): rows
0..3 are assigned for tt = 1..T-1 by the four per-parameter score
formulas; column 0 keeps the np.zeros value 0. -/
def gradientAt (sys : Sys) (i t : ℕ) : ℝ :=
  if 1 ≤ t ∧ t ≤ sys.T - 1 then
    if i = 0 then Q2 sys * px sys t * (1 - A sys)
    else if i = 1 then
      Q2 sys *
          (psi sys t - m sys * xhats sys (t - 1) * (1 - A sys) -
            A sys * eta1 sys t) -
        Q2 sys * m sys * px sys t
    else if i = 2 then
      Q3 sys *
          (eta sys t - 2 * A sys * psi sys t + A sys ^ 2 * eta1 sys t -
              2 * (xhats sys t - A sys * xhats sys (t - 1)) * m sys *
                (1 - A sys) +
            m sys ^ 2 * (1 - A sys) ^ 2) -
        Q1 sys
    else if i = 3 then
      r sys ^ (-3 : ℤ) * (sys.y t ^ 2 - 2 * kappa sys t + eta sys t) -
        r sys ^ (-1 : ℤ)
    else 0
  else 0

/-- Row i of `gradient0 = np.sum(gradient[0:nParInference,:], axis=1)`
(kalman.py line 173): the sum of row i of the per-time matrix over all
T columns (column 0 holds zeros). -/
def gradient0At (sys : Sys) (i : ℕ) : ℝ :=
  ∑ t ∈ Finset.range sys.T, gradientAt sys i t

/-- The attribute set stored by rts (kalman.py lines 183-187): smoothed
variances and states, the final gradient vector
`gradient0[0:nParInference]` after the log-prior derivatives of lines
176-177 were added, and the per-time matrix `gradient[0:nParInference,:]`.
The arrays J and M are local and not stored. -/
structure RtsResult where
  Ps : List ℝ
  xhats : List ℝ
  gradient : List ℝ
  gradient1 : List (List ℝ)

/-- The RTS smoother rts (kalman.py lines 113-187).  `none` models a run
on which the Python raises an uncaught exception: T ≤ 1 (the gradient
loop of line 156 never runs, so line 177 hits the unbound `gradient0`,
and T = 0 already fails at line 130), and nParInference ≥ 5 (line 177
indexes `gradient0`, which numpy slicing clipped to 4 entries, at 4).
On every other input the source runs to completion with no check. -/
def rts (sys : Sys) : Option RtsResult :=
  if sys.T ≤ 1 ∨ 5 ≤ sys.nParInference then none
  else
    some
      { Ps := (List.range sys.T).map (Ps sys)
        xhats := (List.range sys.T).map (xhats sys)
        gradient :=
          (List.range sys.nParInference).map fun i =>
            sys.dprior1 i + gradient0At sys i
        gradient1 :=
          (List.range sys.nParInference).map fun i =>
            (List.range sys.T).map (gradientAt sys i) }

/-! Helper lemmas. -/

lemma Pp_zero (sys : Sys) : Pp sys 0 = Po := rfl

lemma Pp_succ (sys : Sys) (t : ℕ) :
    Pp sys (t + 1) = A sys * Pf sys t * A sys + Q sys := rfl

lemma xhatp_zero (sys : Sys) : xhatp sys 0 = xo := rfl

lemma xhatp_succ (sys : Sys) (t : ℕ) :
    xhatp sys (t + 1) =
      A sys * xhatf sys t + m sys * (1 - A sys) + sys.u t := rfl

lemma S_eq (sys : Sys) (t : ℕ) : S sys t = Pp sys t + R sys := by
  simp [S, Sof, C]

lemma K_eq (sys : Sys) (t : ℕ) : K sys t = Pp sys t / S sys t := by
  simp [K, Kof, S, C]

lemma yhatp_eq (sys : Sys) (t : ℕ) : yhatp sys t = xhatp sys t := by
  simp [yhatp, C]

lemma Pf_eq (sys : Sys) (t : ℕ) :
    Pf sys t = Pp sys t - K sys t * S sys t * K sys t := rfl

lemma listSum_range_map (f : ℕ → ℝ) (n : ℕ) :
    ((List.range n).map f).sum = ∑ t ∈ Finset.range n, f t := by
  induction n with
  | zero => simp
  | succ n ih =>
      rw [List.range_succ, List.map_append, List.sum_append,
        Finset.sum_range_succ, ih]
      simp

lemma getD_range_map (f : ℕ → ℝ) {n t : ℕ} (h : t < n) (d : ℝ) :
    ((List.range n).map f).getD t d = f t := by
  rw [List.getD_eq_getElem?_getD, List.getElem?_map, List.getElem?_range h]
  rfl

lemma J_zero (sys : Sys) : J sys 0 = 0 := by
  simp [J]

lemma J_mid (sys : Sys) {t : ℕ} (h1 : 1 ≤ t) (h2 : t ≤ sys.T - 2) :
    J sys t = Pf sys t * A sys / Pp sys (t + 1) := by
  rw [J, if_pos ⟨h1, h2⟩]

lemma xhats_eq_aux (sys : Sys) {t : ℕ} (h1 : 1 ≤ t) (h2 : t ≤ sys.T - 1) :
    xhats sys t = xhatsAux sys (sys.T - 1 - t) := by
  rw [xhats, if_pos ⟨h1, h2⟩]

lemma Ps_eq_aux (sys : Sys) {t : ℕ} (h1 : 1 ≤ t) (h2 : t ≤ sys.T - 1) :
    Ps sys t = PsAux sys (sys.T - 1 - t) := by
  rw [Ps, if_pos ⟨h1, h2⟩]

lemma M_eq_aux (sys : Sys) {t : ℕ} (h1 : 1 ≤ t) (h2 : t ≤ sys.T - 1) :
    M sys t = MAux sys (sys.T - 1 - t) := by
  rw [M, if_pos ⟨h1, h2⟩]

lemma xhats_zero (sys : Sys) : xhats sys 0 = 0 := by
  simp [xhats]

lemma Ps_zero (sys : Sys) : Ps sys 0 = 0 := by
  simp [Ps]

lemma xhats_last (sys : Sys) (hT : 2 ≤ sys.T) :
    xhats sys (sys.T - 1) = xhatf sys (sys.T - 1) := by
  have h1 : (1 : ℕ) ≤ sys.T - 1 := by omega
  have e0 : sys.T - 1 - (sys.T - 1) = 0 := by omega
  rw [xhats_eq_aux sys h1 le_rfl, e0, xhatsAux]

lemma Ps_last (sys : Sys) (hT : 2 ≤ sys.T) :
    Ps sys (sys.T - 1) = Pf sys (sys.T - 1) := by
  have h1 : (1 : ℕ) ≤ sys.T - 1 := by omega
  have e0 : sys.T - 1 - (sys.T - 1) = 0 := by omega
  rw [Ps_eq_aux sys h1 le_rfl, e0, PsAux]

lemma M_last (sys : Sys) (hT : 2 ≤ sys.T) :
    M sys (sys.T - 1) =
      (1 - K sys (sys.T - 1)) * A sys * Pf sys (sys.T - 1) := by
  have h1 : (1 : ℕ) ≤ sys.T - 1 := by omega
  have e0 : sys.T - 1 - (sys.T - 1) = 0 := by omega
  rw [M_eq_aux sys h1 le_rfl, e0, MAux]

lemma xhats_mid (sys : Sys) {t : ℕ} (h1 : 1 ≤ t) (h2 : t ≤ sys.T - 2) :
    xhats sys t =
      xhatf sys t + J sys t * (xhats sys (t + 1) - xhatp sys (t + 1)) := by
  have hT : 3 ≤ sys.T := by omega
  have ha : (1 : ℕ) ≤ t + 1 := by omega
  have hb : t + 1 ≤ sys.T - 1 := by omega
  have e1 : sys.T - 1 - t = sys.T - 2 - t + 1 := by omega
  have e2 : sys.T - 2 - (sys.T - 2 - t) = t := by omega
  have e3 : sys.T - 1 - (sys.T - 2 - t) = t + 1 := by omega
  have e4 : sys.T - 1 - (t + 1) = sys.T - 2 - t := by omega
  rw [xhats_eq_aux sys h1 (by omega), xhats_eq_aux sys ha hb, e1, e4]
  simp only [xhatsAux]
  rw [e2, e3]

lemma Ps_mid (sys : Sys) {t : ℕ} (h1 : 1 ≤ t) (h2 : t ≤ sys.T - 2) :
    Ps sys t =
      Pf sys t + J sys t * (Ps sys (t + 1) - Pp sys (t + 1)) * J sys t := by
  have hT : 3 ≤ sys.T := by omega
  have ha : (1 : ℕ) ≤ t + 1 := by omega
  have hb : t + 1 ≤ sys.T - 1 := by omega
  have e1 : sys.T - 1 - t = sys.T - 2 - t + 1 := by omega
  have e2 : sys.T - 2 - (sys.T - 2 - t) = t := by omega
  have e3 : sys.T - 1 - (sys.T - 2 - t) = t + 1 := by omega
  have e4 : sys.T - 1 - (t + 1) = sys.T - 2 - t := by omega
  rw [Ps_eq_aux sys h1 (by omega), Ps_eq_aux sys ha hb, e1, e4]
  simp only [PsAux]
  rw [e2, e3]

lemma M_mid (sys : Sys) {t : ℕ} (h1 : 1 ≤ t) (h2 : t ≤ sys.T - 2) :
    M sys t =
      Pf sys t * J sys (t - 1) +
        J sys (t - 1) * (M sys (t + 1) - A sys * Pf sys t) * J sys (t - 1) := by
  have hT : 3 ≤ sys.T := by omega
  have ha : (1 : ℕ) ≤ t + 1 := by omega
  have hb : t + 1 ≤ sys.T - 1 := by omega
  have e1 : sys.T - 1 - t = sys.T - 2 - t + 1 := by omega
  have e2 : sys.T - 2 - (sys.T - 2 - t) = t := by omega
  have e3 : sys.T - 1 - (sys.T - 2 - t) = t + 1 := by omega
  have e4 : sys.T - 1 - (t + 1) = sys.T - 2 - t := by omega
  rw [M_eq_aux sys h1 (by omega), M_eq_aux sys ha hb, e1, e4]
  simp only [MAux]
  rw [e2]

lemma rts_eq_some (sys : Sys) (hT : 2 ≤ sys.T) (hn : sys.nParInference ≤ 4) :
    rts sys =
      some
        { Ps := (List.range sys.T).map (Ps sys)
          xhats := (List.range sys.T).map (xhats sys)
          gradient :=
            (List.range sys.nParInference).map fun i =>
              sys.dprior1 i + gradient0At sys i
          gradient1 :=
            (List.range sys.nParInference).map fun i =>
              (List.range sys.T).map (gradientAt sys i) } := by
  rw [rts, if_neg (by omega : ¬(sys.T ≤ 1 ∨ 5 ≤ sys.nParInference))]

lemma gradientAt_zero_col (sys : Sys) (i : ℕ) : gradientAt sys i 0 = 0 := by
  simp [gradientAt]

lemma gradient0At_eq_Icc (sys : Sys) (hT : 1 ≤ sys.T) (i : ℕ) :
    gradient0At sys i = ∑ t ∈ Finset.Icc 1 (sys.T - 1), gradientAt sys i t := by
  rw [gradient0At]
  have hins : Finset.range sys.T = insert 0 (Finset.Icc 1 (sys.T - 1)) := by
    ext x
    simp only [Finset.mem_range, Finset.mem_insert, Finset.mem_Icc]
    omega
  rw [hins, Finset.sum_insert (by simp), gradientAt_zero_col]
  ring

lemma R_pos (sys : Sys) (hr : sys.par 3 ≠ 0) : 0 < R sys :=
  lt_of_le_of_ne (sq_nonneg _) (Ne.symm (pow_ne_zero 2 hr))

lemma Sof_pos (sys : Sys) (hr : sys.par 3 ≠ 0) {p : ℝ} (hp : 0 ≤ p) :
    0 < Sof sys p := by
  have hR := R_pos sys hr
  simp only [Sof, C]
  nlinarith

lemma Pfof_eq_div (sys : Sys) {p : ℝ} (hS : Sof sys p ≠ 0) :
    Pfof sys p = p * R sys / Sof sys p := by
  have hexp : Sof sys p = p + R sys := by simp [Sof, C]
  rw [Pfof, Kof]
  simp only [C, mul_one]
  rw [hexp] at hS ⊢
  field_simp
  ring

lemma Pp_nonneg (sys : Sys) (hr : sys.par 3 ≠ 0) : ∀ t, 0 ≤ Pp sys t := by
  intro t
  induction t with
  | zero =>
      rw [Pp_zero, Po]
      norm_num
  | succ n ih =>
      have hS : 0 < Sof sys (Pp sys n) := Sof_pos sys hr ih
      have hPf : 0 ≤ Pfof sys (Pp sys n) := by
        rw [Pfof_eq_div sys (ne_of_gt hS)]
        exact div_nonneg (mul_nonneg ih (le_of_lt (R_pos sys hr))) (le_of_lt hS)
      rw [Pp_succ]
      have hQ : 0 ≤ Q sys := sq_nonneg _
      have hPf2 : Pf sys n = Pfof sys (Pp sys n) := rfl
      nlinarith [sq_nonneg (A sys), hPf]

lemma S_pos (sys : Sys) (hr : sys.par 3 ≠ 0) (t : ℕ) : 0 < S sys t :=
  Sof_pos sys hr (Pp_nonneg sys hr t)

lemma Pf_eq_div (sys : Sys) (hr : sys.par 3 ≠ 0) (t : ℕ) :
    Pf sys t = Pp sys t * R sys / S sys t :=
  Pfof_eq_div sys (ne_of_gt (S_pos sys hr t))

lemma Pf_nonneg (sys : Sys) (hr : sys.par 3 ≠ 0) (t : ℕ) : 0 ≤ Pf sys t := by
  rw [Pf_eq_div sys hr t]
  exact div_nonneg
    (mul_nonneg (Pp_nonneg sys hr t) (le_of_lt (R_pos sys hr)))
    (le_of_lt (S_pos sys hr t))

/-! Concrete inputs. -/

/-- The concrete scenario of the specification:
par = [0.0, 0.9, 0.5, 0.5], u = 0, y = [0.1, -0.2, 0.3, 0.05, -0.1],
T = 5, nParInference = 4, zero log-prior derivative. -/
def sysEx : Sys where
  par := fun i =>
    if i = 1 then 0.9 else if i = 2 then 0.5 else if i = 3 then 0.5 else 0
  y := fun t =>
    if t = 0 then 0.1
    else if t = 1 then -0.2
    else if t = 2 then 0.3
    else if t = 3 then 0.05
    else -0.1
  u := fun _ => 0
  T := 5
  nParInference := 4
  dprior1 := fun _ => 0

/-- A minimal concrete input with par = [0, 1, 1, 1], constant data and
T = 3. -/
def sysB : Sys where
  par := fun i => if i = 0 then 0 else 1
  y := fun _ => 1
  u := fun _ => 0
  T := 3
  nParInference := 4
  dprior1 := fun _ => 0

/-- The T = 2 boundary case of sysB. -/
def sysT2 : Sys := { sysB with T := 2 }

/-- A degenerate input with sigma_v = par[2] = 0 (par = [0, 1, 0, 1]),
T = 2. -/
def sysQ0 : Sys where
  par := fun i => if i = 0 then 0 else if i = 2 then 0 else 1
  y := fun _ => 1
  u := fun _ => 0
  T := 2
  nParInference := 4
  dprior1 := fun _ => 0

/-- An input violating the claimed precondition nParInference ∈ [1,4]:
nParInference = 0 with T = 2. -/
def sysN0 : Sys := { sysB with T := 2, nParInference := 0 }

/-! Claim statements and theorems. -/

/-- The per-step contract of the filter kf at time t: the five update
quantities, the two predictions for t+1, the per-time log-likelihood,
and the parameter decoding of kalman.py lines 63-69. -/
def kfStepProp (sys : Sys) (t : ℕ) : Prop :=
  S sys t = Pp sys t + R sys ∧
  K sys t = Pp sys t / S sys t ∧
  yhatp sys t = xhatp sys t ∧
  xhatf sys t = xhatp sys t + K sys t * (sys.y t - yhatp sys t) ∧
  Pf sys t = Pp sys t - K sys t * S sys t * K sys t ∧
  xhatp sys (t + 1) = A sys * xhatf sys t + m sys * (1 - A sys) + sys.u t ∧
  Pp sys (t + 1) = A sys * Pf sys t * A sys + Q sys ∧
  ll sys t = -0.5 * Real.log (2 * Real.pi * S sys t) -
      0.5 * (sys.y t - yhatp sys t) ^ 2 / S sys t ∧
  m sys = sys.par 0 ∧ A sys = sys.par 1 ∧ Q sys = sys.par 2 ^ 2 ∧
  R sys = sys.par 3 ^ 2 ∧ C = 1

/-- C1: for every parameter vector [m, A, q, r] and sequences y, u of
length T, the Kalman filter kf computes, for each t = 0..T-1, exactly
S_t = Pp_t + R, K_t = Pp_t/S_t, yhatp_t = xhatp_t, xhatf_t = xhatp_t +
K_t(y_t - yhatp_t), Pf_t = Pp_t - K_t S_t K_t, xhatp_{t+1} = A xhatf_t +
m(1-A) + u_t, Pp_{t+1} = A Pf_t A + Q, and ll_t = -ln(2π S_t)/2 -
(y_t - yhatp_t)²/(2 S_t), with m = par[0], A = par[1], Q = par[2]²,
R = par[3]² and observation matrix fixed at 1. -/
theorem kf_step_matches_spec (sys : Sys) (t : ℕ) (ht : t < sys.T) :
    kfStepProp sys t := by
  refine ⟨S_eq sys t, K_eq sys t, yhatp_eq sys t, rfl, Pf_eq sys t,
    xhatp_succ sys t, Pp_succ sys t, ?_, rfl, rfl, rfl, rfl, rfl⟩
  rw [ll]
  ring

/-- Witness for kf_step_matches_spec at the concrete scenario input,
t = 0. -/
theorem kf_step_matches_spec_witness : kfStepProp sysEx 0 :=
  kf_step_matches_spec sysEx 0 (by decide)

/-- C5: the scalar total log-likelihood stored by kf is the exact sum of
the per-time log-likelihood array it stores, which holds ll_t for
t = 0..T-1. -/
theorem kf_loglik_is_sum (sys : Sys) :
    (kf sys).ll = ((kf sys).llt).sum ∧
    (kf sys).llt = (List.range sys.T).map (ll sys) ∧
    ((kf sys).llt).sum = ∑ t ∈ Finset.range sys.T, ll sys t :=
  ⟨rfl, rfl, listSum_range_map _ _⟩

/-- C9: the arrays produced by kf are length-consistent with T (xhatp
and Pp have T+1 entries; xhatf, Pf, K, the per-time ll, and the local
arrays S and yhatp have T entries), and the initial predicted mean 0.0
and initial predicted variance 1e-5 are the same on every call. -/
theorem kf_result_lengths (sys : Sys) :
    (kf sys).xhatp.length = sys.T + 1 ∧
    (kf sys).Pp.length = sys.T + 1 ∧
    (kf sys).xhatf.length = sys.T ∧
    (kf sys).Pf.length = sys.T ∧
    (kf sys).K.length = sys.T ∧
    (kf sys).llt.length = sys.T ∧
    (Slist sys).length = sys.T ∧
    (yhatplist sys).length = sys.T ∧
    (kf sys).xhatp.getD 0 1 = 0 ∧
    (kf sys).Pp.getD 0 0 = 1e-5 := by
  refine ⟨by simp [kf], by simp [kf], by simp [kf], by simp [kf],
    by simp [kf], by simp [kf], by simp [Slist], by simp [yhatplist],
    ?_, ?_⟩
  · show ((List.range (sys.T + 1)).map (xhatp sys)).getD 0 1 = 0
    rw [getD_range_map (xhatp sys) (by omega) 1]
    rfl
  · show ((List.range (sys.T + 1)).map (Pp sys)).getD 0 0 = 1e-5
    rw [getD_range_map (Pp sys) (by omega) 0]
    rfl

/-- C10: with par[3] ≠ 0 every division of the filter is well-defined:
Pp_0 = 1e-5 > 0, the predicted variances stay non-negative inductively,
Pf_t = Pp_t R / S_t ≥ 0, and the innovation variance S_t is strictly
positive (hence nonzero) at every step. -/
theorem kf_divisions_safe (sys : Sys) (t : ℕ) (hr : sys.par 3 ≠ 0) :
    0 < Pp sys 0 ∧ 0 ≤ Pp sys t ∧ 0 < S sys t ∧ S sys t ≠ 0 ∧
    Pf sys t = Pp sys t * R sys / S sys t ∧ 0 ≤ Pf sys t ∧
    0 ≤ Pp sys (t + 1) := by
  refine ⟨?_, Pp_nonneg sys hr t, S_pos sys hr t, ne_of_gt (S_pos sys hr t),
    Pf_eq_div sys hr t, Pf_nonneg sys hr t, Pp_nonneg sys hr (t + 1)⟩
  rw [Pp_zero, Po]
  norm_num

/-- Witness for kf_divisions_safe at the concrete scenario input,
t = 2. -/
theorem kf_divisions_safe_witness :
    0 < Pp sysEx 0 ∧ 0 ≤ Pp sysEx 2 ∧ 0 < S sysEx 2 ∧ S sysEx 2 ≠ 0 ∧
    Pf sysEx 2 = Pp sysEx 2 * R sysEx / S sysEx 2 ∧ 0 ≤ Pf sysEx 2 ∧
    0 ≤ Pp sysEx 3 :=
  kf_divisions_safe sysEx 2 (by norm_num [sysEx])

/-- The backward-pass contract of the smoother: boundary conditions,
the smoothing recursion for t = T-2..1, and the lag-one covariance
recursion (J standing for the smoother-gain array as stored, assigned
exactly at indices 1..T-2). -/
def backwardProp (sys : Sys) : Prop :=
  xhats sys (sys.T - 1) = xhatf sys (sys.T - 1) ∧
  Ps sys (sys.T - 1) = Pf sys (sys.T - 1) ∧
  (∀ t, 1 ≤ t → t ≤ sys.T - 2 →
    J sys t = Pf sys t * A sys / Pp sys (t + 1) ∧
    xhats sys t =
      xhatf sys t + J sys t * (xhats sys (t + 1) - xhatp sys (t + 1)) ∧
    Ps sys t =
      Pf sys t + J sys t * (Ps sys (t + 1) - Pp sys (t + 1)) * J sys t) ∧
  M sys (sys.T - 1) = (1 - K sys (sys.T - 1)) * A sys * Pf sys (sys.T - 1) ∧
  (∀ t, 1 ≤ t → t ≤ sys.T - 2 →
    M sys t =
      Pf sys t * J sys (t - 1) +
        J sys (t - 1) * (M sys (t + 1) - A sys * Pf sys t) * J sys (t - 1))

/-- C3: for every smoother run with T ≥ 2 the backward pass sets
xhats_{T-1} = xhatf_{T-1} and Ps_{T-1} = Pf_{T-1} and, for t = T-2..1,
computes J_t = Pf_t A / Pp_{t+1}, xhats_t = xhatf_t + J_t(xhats_{t+1} -
xhatp_{t+1}), Ps_t = Pf_t + J_t(Ps_{t+1} - Pp_{t+1})J_t; the lag-one
covariances satisfy M_{T-1} = (1 - K_{T-1}) A Pf_{T-1} and, for
t = T-2..1, M_t = Pf_t J_{t-1} + J_{t-1}(M_{t+1} - A Pf_t)J_{t-1}. -/
theorem rts_backward_matches_spec (sys : Sys) (hT : 2 ≤ sys.T) :
    backwardProp sys := by
  refine ⟨xhats_last sys hT, Ps_last sys hT, ?_, M_last sys hT, ?_⟩
  · intro t h1 h2
    exact ⟨J_mid sys h1 h2, xhats_mid sys h1 h2, Ps_mid sys h1 h2⟩
  · intro t h1 h2
    exact M_mid sys h1 h2

/-- Witness for rts_backward_matches_spec at the concrete scenario
input. -/
theorem rts_backward_matches_spec_witness : backwardProp sysEx :=
  rts_backward_matches_spec sysEx (by decide)

/-- The gradient contract of the smoother: the returned gradient vector
has nParInference entries, entry i is the external log-prior derivative
plus the sum over t = 1..T-1 of the per-parameter score, the sufficient
statistics and the four scores take the specified form on that range,
and the raw per-time matrix is returned alongside. -/
def gradSpecProp (sys : Sys) : Prop :=
  (rts sys).isSome = true ∧
  (rts sys).elim [] RtsResult.gradient =
    ((List.range sys.nParInference).map fun i =>
      sys.dprior1 i + ∑ t ∈ Finset.Icc 1 (sys.T - 1), gradientAt sys i t) ∧
  (∀ t, 1 ≤ t → t ≤ sys.T - 1 →
    kappa sys t = xhats sys t * sys.y t ∧
    eta sys t = xhats sys t ^ 2 + Ps sys t ∧
    eta1 sys t = xhats sys (t - 1) ^ 2 + Ps sys (t - 1) ∧
    psi sys t = xhats sys (t - 1) * xhats sys t + M sys t ∧
    px sys t =
      xhats sys t - m sys - A sys * (xhats sys (t - 1) - m sys) + sys.u t ∧
    gradientAt sys 0 t = q sys ^ (-2 : ℤ) * px sys t * (1 - A sys) ∧
    gradientAt sys 1 t =
      q sys ^ (-2 : ℤ) *
          (psi sys t - m sys * xhats sys (t - 1) * (1 - A sys) -
            A sys * eta1 sys t) -
        q sys ^ (-2 : ℤ) * m sys * px sys t ∧
    gradientAt sys 2 t =
      q sys ^ (-3 : ℤ) *
          (eta sys t - 2 * A sys * psi sys t + A sys ^ 2 * eta1 sys t -
              2 * (xhats sys t - A sys * xhats sys (t - 1)) * m sys *
                (1 - A sys) +
            m sys ^ 2 * (1 - A sys) ^ 2) -
        q sys ^ (-1 : ℤ) ∧
    gradientAt sys 3 t =
      r sys ^ (-3 : ℤ) * (sys.y t ^ 2 - 2 * kappa sys t + eta sys t) -
        r sys ^ (-1 : ℤ)) ∧
  (rts sys).elim [] RtsResult.gradient1 =
    ((List.range sys.nParInference).map fun i =>
      (List.range sys.T).map (gradientAt sys i))

/-- C2: for every smoother run with T ≥ 2 and nParInference in [1,4],
the gradient is built for t = 1..T-1 from the sufficient statistics
kappa, eta, eta1, psi, px via the four per-parameter partial scores,
summed over t, truncated to the first nParInference components, with
the external log-prior derivative dprior1(i) added to component i; the
output is this gradient vector plus the raw per-time matrix. -/
theorem rts_gradient_matches_spec (sys : Sys) (hT : 2 ≤ sys.T)
    (h1 : 1 ≤ sys.nParInference) (h4 : sys.nParInference ≤ 4) :
    gradSpecProp sys := by
  rw [gradSpecProp, rts_eq_some sys hT h4]
  refine ⟨rfl, ?_, ?_, rfl⟩
  · show (List.range sys.nParInference).map _ = (List.range sys.nParInference).map _
    refine List.map_congr_left fun i hi => ?_
    rw [gradient0At_eq_Icc sys (by omega) i]
  · intro t ht1 ht2
    refine ⟨rfl, by rw [eta]; ring, by rw [eta1]; ring, rfl, rfl, ?_, ?_, ?_, ?_⟩
    · rw [gradientAt, if_pos ⟨ht1, ht2⟩]
      norm_num [Q2]
    · rw [gradientAt, if_pos ⟨ht1, ht2⟩]
      norm_num [Q2]
    · rw [gradientAt, if_pos ⟨ht1, ht2⟩]
      norm_num [Q1, Q3]
    · rw [gradientAt, if_pos ⟨ht1, ht2⟩]
      norm_num

/-- Witness for rts_gradient_matches_spec at the concrete scenario
input. -/
theorem rts_gradient_matches_spec_witness : gradSpecProp sysEx :=
  rts_gradient_matches_spec sysEx (by decide) (by decide) (by decide)

/-- C4 counterexample: at the concrete input sysB (T = 3), the value
J_0 read by the lag-one covariance recursion when it computes M_1 is the
np.zeros initialisation value 0, and this differs from the
backward-recursion value Pf_0 * A / Pp_1 = 1/100002.  The backward loop
`range(T-2, 0, -1)` stops at index 1 and never assigns J_0. -/
theorem rts_J0_counterexample :
    J sysB 0 = 0 ∧ J sysB 0 ≠ Pf sysB 0 * A sysB / Pp sysB 1 := by
  have hPf : Pf sysB 0 = 1 / 100001 := by
    rw [show Pf sysB 0 = Pfof sysB (Pp sysB 0) from rfl, Pp_zero]
    rw [Pfof, Kof, Sof]
    norm_num [C, R, sysB, Po]
  have hPp : Pp sysB 1 = 100002 / 100001 := by
    have h := Pp_succ sysB 0
    norm_num at h
    rw [h, hPf]
    norm_num [A, Q, sysB]
  refine ⟨J_zero sysB, ?_⟩
  rw [J_zero sysB, hPf, hPp]
  norm_num [A, sysB]

/-- C4 amended: in every smoother run with T ≥ 3, the value J_0 read by
the lag-one covariance recursion at its step t = 1 is the never-assigned
np.zeros initialisation value 0 (the backward loop assigns only indices
1..T-2), and consequently M_1 = 0. -/
theorem rts_J0_amended (sys : Sys) (hT : 3 ≤ sys.T) :
    J sys 0 = 0 ∧ M sys 1 = 0 := by
  refine ⟨J_zero sys, ?_⟩
  have h1 : (1 : ℕ) ≤ 1 := le_rfl
  have h2 : 1 ≤ sys.T - 2 := by omega
  have h := M_mid sys h1 h2
  norm_num at h
  rw [h, J_zero sys]
  ring

/-- Witness for rts_J0_amended at the concrete input sysB (T = 3). -/
theorem rts_J0_amended_witness : J sysB 0 = 0 ∧ M sysB 1 = 0 :=
  rts_J0_amended sysB (by decide)

/-- C6 counterexample: at the concrete T = 2 input sysT2, the smoother
returns index-0 smoothed state and covariance that silently hold the
value 0 (the np.zeros default) — they are plain numbers in the result,
not values marked undefined. -/
theorem rts_index0_counterexample :
    (rts sysT2).elim 1 (fun res => res.xhats.getD 0 1) = 0 ∧
    (rts sysT2).elim 1 (fun res => res.Ps.getD 0 1) = 0 := by
  rw [rts_eq_some sysT2 (by decide) (by decide)]
  constructor
  · show ((List.range sysT2.T).map (xhats sysT2)).getD 0 1 = 0
    rw [getD_range_map (xhats sysT2) (by decide) 1, xhats_zero]
  · show ((List.range sysT2.T).map (Ps sysT2)).getD 0 1 = 0
    rw [getD_range_map (Ps sysT2) (by decide) 1, Ps_zero]

/-- C6 amended: for every smoother run with T ≥ 2 (and nParInference at
most 4) the smoother completes without failure, and the index-0 entries
of the returned xhats and Ps, left unassigned by the backward recursion,
silently hold the value zero — no undefined marking exists. -/
theorem rts_index0_amended (sys : Sys) (hT : 2 ≤ sys.T)
    (hn : sys.nParInference ≤ 4) :
    (rts sys).isSome = true ∧
    (rts sys).elim 1 (fun res => res.xhats.getD 0 1) = 0 ∧
    (rts sys).elim 1 (fun res => res.Ps.getD 0 1) = 0 ∧
    xhats sys 0 = 0 ∧ Ps sys 0 = 0 := by
  rw [rts_eq_some sys hT hn]
  refine ⟨rfl, ?_, ?_, xhats_zero sys, Ps_zero sys⟩
  · show ((List.range sys.T).map (xhats sys)).getD 0 1 = 0
    rw [getD_range_map (xhats sys) (by omega) 1, xhats_zero]
  · show ((List.range sys.T).map (Ps sys)).getD 0 1 = 0
    rw [getD_range_map (Ps sys) (by omega) 1, Ps_zero]

/-- Witness for rts_index0_amended at the concrete T = 2 input sysT2. -/
theorem rts_index0_amended_witness :
    (rts sysT2).isSome = true ∧
    (rts sysT2).elim 1 (fun res => res.xhats.getD 0 1) = 0 ∧
    (rts sysT2).elim 1 (fun res => res.Ps.getD 0 1) = 0 ∧
    xhats sysT2 0 = 0 ∧ Ps sysT2 0 = 0 :=
  rts_index0_amended sysT2 (by decide) (by decide)

/-- C7 counterexample: at the concrete input sysQ0 with
sigma_v = par[2] = 0, the smoother does not fail: it runs to completion
and returns a result. -/
theorem rts_sigmav0_counterexample :
    sysQ0.par 2 = 0 ∧ (rts sysQ0).isSome = true := by
  constructor
  · norm_num [sysQ0]
  · rw [rts_eq_some sysQ0 (by decide) (by decide)]
    rfl

/-- C7 amended: the code contains no degeneracy check: with
sigma_v = par[2] = 0 the smoother still returns a result, silently
computing the gradient with the degenerate reciprocals q^-1, q^-2, q^-3
(inf/NaN in floating point; 0 under the real-number embedding's
division-by-zero convention) instead of raising a typed failure. -/
theorem rts_sigmav0_amended (sys : Sys) (hq : sys.par 2 = 0)
    (hT : 2 ≤ sys.T) (hn : sys.nParInference ≤ 4) :
    (rts sys).isSome = true ∧ Q1 sys = 0 ∧ Q2 sys = 0 ∧ Q3 sys = 0 := by
  refine ⟨by rw [rts_eq_some sys hT hn]; rfl, ?_, ?_, ?_⟩
  · rw [Q1, q, hq]
    norm_num
  · rw [Q2, q, hq]
    norm_num
  · rw [Q3, q, hq]
    norm_num

/-- Witness for rts_sigmav0_amended at the concrete input sysQ0. -/
theorem rts_sigmav0_amended_witness :
    (rts sysQ0).isSome = true ∧ Q1 sysQ0 = 0 ∧ Q2 sysQ0 = 0 ∧
    Q3 sysQ0 = 0 :=
  rts_sigmav0_amended sysQ0 (by norm_num [sysQ0]) (by decide) (by decide)

/-- C8 counterexample: at the concrete input sysN0 with
nParInference = 0 (outside the claimed [1,4] precondition) and T = 2,
the smoother does not fail: it runs the backward pass and returns a
result whose gradient is the empty vector. -/
theorem rts_precondition_counterexample :
    sysN0.nParInference = 0 ∧ (rts sysN0).isSome = true ∧
    (rts sysN0).elim [1] RtsResult.gradient = [] := by
  refine ⟨by decide, ?_, ?_⟩
  · rw [rts_eq_some sysN0 (by decide) (by decide)]
    rfl
  · rw [rts_eq_some sysN0 (by decide) (by decide)]
    rfl

/-- C8 amended: the smoother performs no precondition validation.
nParInference = 0 with T ≥ 2 runs the backward pass to completion and
returns an empty gradient; T < 2 and nParInference ≥ 5 produce no
result at all (uncaught NameError/IndexError in the source, raised
during or after the gradient accumulation), not an explicit
precondition failure before the backward pass. -/
theorem rts_precondition_amended (sys : Sys) (hT : 2 ≤ sys.T)
    (hn : sys.nParInference = 0) :
    (rts sys).isSome = true ∧
    (rts sys).elim [1] RtsResult.gradient = [] ∧
    rts { sys with T := 1 } = none ∧
    rts { sys with nParInference := 5 } = none := by
  refine ⟨?_, ?_, ?_, ?_⟩
  · rw [rts_eq_some sys hT (by omega)]
    rfl
  · rw [rts_eq_some sys hT (by omega), hn]
    rfl
  · rw [rts, if_pos (Or.inl (by simp))]
  · rw [rts, if_pos (Or.inr (by simp))]

/-- Witness for rts_precondition_amended at the concrete input sysN0. -/
theorem rts_precondition_amended_witness :
    (rts sysN0).isSome = true ∧
    (rts sysN0).elim [1] RtsResult.gradient = [] ∧
    rts { sysN0 with T := 1 } = none ∧
    rts { sysN0 with nParInference := 5 } = none :=
  rts_precondition_amended sysN0 (by decide) (by decide)

end Kalman
